import Mathlib

/-!
Verification of the CodeWaveRPC framework (Go) against its specification.

The Go sources are shallowly embedded: pure decision logic becomes Lean
functions, the per-connection loops become functions over an explicit list
of read events, and the client becomes an explicit state machine.  Machine
integers (uint64 seq counters) are modelled as Nat with reduction mod 2^64
where the source increments them.
-/

namespace CWRPC

/-! ## Codec layer (day1-codec/codec/codec.go) -/

/-- Header from codec.go: SeviceMethod (sic), Seq (uint64), Error.  An empty
Error string signals success. -/
structure Header where
  seviceMethod : String
  seq : Nat
  error : String
deriving Repr, DecidableEq

/-- GobType constant from codec.go. -/
def GobType : String := "application/gob"

/-- JsonType constant from codec.go. -/
def JsonType : String := "application/json"

/-- The concrete codec constructors that exist in the package. -/
inductive CodecKind where
  | gob
deriving Repr, DecidableEq

/-- NewCodecFuncMap after init() in codec.go: only GobType is registered
(JsonType is declared but never inserted into the map). -/
def NewCodecFuncMap (t : String) : Option CodecKind :=
  if t = GobType then some CodecKind.gob else none

/-! ## Handshake option (day1-codec/server.go) -/

/-- MagicNumber constant from server.go. -/
def MagicNumber : Int := 0x3bef5c

/-- The Go struct named Option in server.go (renamed here to avoid clashing
with the Lean core Option type): the handshake record. -/
structure Opt where
  magicNumber : Int
  codecType : String
deriving Repr, DecidableEq

/-- DefaultOption from server.go. -/
def DefaultOption : Opt :=
  { magicNumber := MagicNumber, codecType := GobType }

/-! ## Server request loop (day1-codec/server.go)

The read side of a codec is modelled as a list of read events: each
iteration of serveCodec either fails to read a header, or reads a header
followed by a body whose gob decode succeeds (some value) or fails (none).
-/

/-- One inbound read attempt as seen by the server loop. -/
inductive ReadEvent where
  | headerFail (err : String)
  | request (h : Header) (body : Option String)
deriving Repr, DecidableEq

/-- Bodies of server response frames: either a string reply value or the
package-level sentinel invalidRequest (an empty struct). -/
inductive Body where
  | str (s : String)
  | invalidRequest
deriving Repr, DecidableEq

/-- Server-side request record from server.go: header plus the decoded
argument slot (day1 allocates a string slot with reflect.New). -/
structure Request where
  h : Header
  argv : String
deriving Repr, DecidableEq

/-- Server.readRequestHeader: ReadHeader into h, returning the error when
the read fails. -/
def readRequestHeader : ReadEvent → Except String Header
  | ReadEvent.headerFail e => Except.error e
  | ReadEvent.request h _ => Except.ok h

/-- Server.readRequest, returning the Go pair (req *request, err error).
When the header read fails it returns (nil, err).  When the body decode
fails the error is only logged and the function still ends in
return req, nil, the argv slot keeping its zero value. -/
def readRequest (ev : ReadEvent) : Option Request × Option String :=
  match readRequestHeader ev with
  | Except.error e => (none, some e)
  | Except.ok h =>
    let argv : String :=
      match ev with
      | ReadEvent.request _ (some b) => b
      | _ => ""
    (some { h := h, argv := argv }, none)

/-- Server.handleRequest (day1): reply with the hello string built from the
request sequence number, echoing the request header unchanged. -/
def handleRequest (req : Request) : Header × Body :=
  (req.h, Body.str ("geerpc resp " ++ toString req.h.seq))

/-- Server.serveCodec: loop reading requests.  A header-read failure breaks
the loop (req = nil); a non-nil request paired with a non-nil error gets the
error copied into the header and the invalidRequest sentinel sent back; an
error-free request is dispatched to handleRequest.  The returned list is the
sequence of response frames written through the sending mutex. -/
def serveCodec : List ReadEvent → List (Header × Body)
  | [] => []
  | ev :: rest =>
    match readRequest ev with
    | (none, some _) => []
    | (none, none) => []
    | (some req, some err) =>
      ({ req.h with error := err }, Body.invalidRequest) :: serveCodec rest
    | (some req, none) => handleRequest req :: serveCodec rest

/-- Outcome of Server.ServeConn on one connection: the response frames
written, and whether the connection was closed (the deferred conn.Close
always runs). -/
structure ConnOutcome where
  frames : List (Header × Body)
  connClosed : Bool
deriving Repr, DecidableEq

/-- Server.ServeConn: decode the handshake record (none models a JSON
decode error), check the magic number, look up the codec constructor, and
only then serve; every early return writes nothing.  The deferred
conn.Close runs on every path. -/
def ServeConn (decoded : Option Opt) (evs : List ReadEvent) : ConnOutcome :=
  match decoded with
  | none => { frames := [], connClosed := true }
  | some opt =>
    if opt.magicNumber ≠ MagicNumber then { frames := [], connClosed := true }
    else
      match NewCodecFuncMap opt.codecType with
      | none => { frames := [], connClosed := true }
      | some _ => { frames := serveCodec evs, connClosed := true }

/-! ## GobCodec.Write (day1-codec/codec/gob.go) -/

/-- The fallible effects of one GobCodec.Write call: whether the header
encode, the body encode, and the buffer flush would fail. -/
structure GobWriteEnv where
  encodeHeaderErr : Option String
  encodeBodyErr : Option String
  flushErr : Option String
deriving Repr, DecidableEq

/-- Observable result of GobCodec.Write: the named return err, whether
buf.Flush was attempted, and whether g.Close was called. -/
structure GobWriteResult where
  err : Option String
  flushed : Bool
  closed : Bool
deriving Repr, DecidableEq

/-- GobCodec.Write from gob.go: encode the header, then (only if that
succeeded) encode the body; the deferred function then always runs
buf.Flush with its result discarded, and calls g.Close exactly when the
named return err is non-nil.  The flush error never reaches err. -/
def GobCodec.Write (env : GobWriteEnv) : GobWriteResult :=
  let err : Option String :=
    match env.encodeHeaderErr with
    | some e => some e
    | none => env.encodeBodyErr
  { err := err, flushed := true, closed := err.isSome }

/-! ## Client multiplexer (src/unnamed/part_002, client file) -/

/-- Number of distinct uint64 values: the seq counter wraps mod this. -/
def U64 : Nat := 2 ^ 64

/-- ErrShutdown message from the client file. -/
def ErrShutdown : String := "connection is shut down"

/-- The Done channel of a Call: only its capacity is observable to the
claims under verification. -/
structure DoneChan where
  capacity : Nat
deriving Repr, DecidableEq

/-- Client-side Call record.  The Done channel send performed by
Call.done() is modelled by incrementing doneCount. -/
structure Call where
  seq : Nat
  serviceMethod : String
  args : String
  reply : Option String
  error : Option String
  doneChan : DoneChan
  doneCount : Nat
deriving Repr, DecidableEq

/-- Call.done(): c.Done <- c, one completion signal. -/
def Call.done (c : Call) : Call :=
  { c with doneCount := c.doneCount + 1 }

/-- Client state: the uint64 seq counter, the pending table (a map
seq -> Call, modelled as an association list with unique keys), and the
closing/shutdown flags.  The codec and locks are not part of the
observable state. -/
structure Client where
  seq : Nat
  pending : List (Nat × Call)
  closing : Bool
  shutdown : Bool
deriving Repr, DecidableEq

/-- Lookup in the pending map (Go map indexing). -/
def pendingLookup : List (Nat × Call) → Nat → Option Call
  | [], _ => none
  | p :: ps, s => if p.1 = s then some p.2 else pendingLookup ps s

/-- Deletion from the pending map (Go delete). -/
def pendingErase (ps : List (Nat × Call)) (s : Nat) : List (Nat × Call) :=
  ps.filter (fun p => p.1 ≠ s)

/-- Client.registerCall: under the state lock, fail with ErrShutdown and
seq 0 when the client is shutting down or closed; otherwise stamp the call
with the current counter, insert it into pending, and increment the
counter (uint64 arithmetic). -/
def registerCall (client : Client) (call : Call) : Client × Nat × Option String :=
  if client.shutdown || client.closing then (client, 0, some ErrShutdown)
  else
    let call := { call with seq := client.seq }
    ({ client with
        pending := (call.seq, call) :: client.pending,
        seq := (client.seq + 1) % U64 },
      call.seq, none)

/-- Client.removeCall: look the call up by seq, delete the entry, return
the call (possibly nil). -/
def removeCall (client : Client) (seq : Nat) : Client × Option Call :=
  ({ client with pending := pendingErase client.pending seq },
    pendingLookup client.pending seq)

/-- Client.terminateCalls: mark the client shut down and, for every call
still in the pending table, set its error and fire its completion signal.
The entries are not deleted from the table. -/
def terminateCalls (client : Client) (err : String) : Client :=
  { client with
      shutdown := true,
      pending := client.pending.map
        (fun p => (p.1, Call.done { p.2 with error := some err })) }

/-- newClientCodec: fresh client with seq starting at 1 (0 means invalid
call), an empty pending table, and both flags clear. -/
def newClientCodec : Client :=
  { seq := 1, pending := [], closing := false, shutdown := false }

/-- Client.Close: fail when already closing, otherwise set closing and
close the codec. -/
def Client.Close (client : Client) : Client × Option String :=
  if client.closing then (client, some ErrShutdown)
  else ({ client with closing := true }, none)

/-- Client.send, with the outcome of the codec Write supplied as writeErr
(none means the write succeeded).  Returns the new client state, the list
of request frames that reached the connection, and the final state of the
Call object handed in. -/
def send (client : Client) (call : Call) (writeErr : Option String) :
    Client × List (Header × String) × Call :=
  match registerCall client call with
  | (client1, _, some err) =>
    (client1, [], Call.done { call with error := some err })
  | (client1, seq, none) =>
    let hdr : Header := { seviceMethod := call.serviceMethod, seq := seq, error := "" }
    match writeErr with
    | none => (client1, [(hdr, call.args)], { call with seq := seq })
    | some e =>
      match removeCall client1 seq with
      | (client2, none) => (client2, [], { call with seq := seq })
      | (client2, some c) => (client2, [], Call.done { c with error := some e })

/-- Client.Go: when the caller passes no completion channel, allocate one
of capacity 10; a caller-supplied channel of capacity 0 triggers
log.Panic; otherwise use the supplied channel.  On the non-panicking paths
the call is built and handed to send. -/
def Client.Go (client : Client) (serviceMethod args : String)
    (done : Option DoneChan) (writeErr : Option String) :
    Except String (Client × List (Header × String) × Call) :=
  match done with
  | none =>
    let d : DoneChan := { capacity := 10 }
    Except.ok (send client
      { seq := 0, serviceMethod := serviceMethod, args := args,
        reply := none, error := none, doneChan := d, doneCount := 0 } writeErr)
  | some d =>
    if d.capacity = 0 then Except.error "rpc client: done channel is unbuffered"
    else
      Except.ok (send client
        { seq := 0, serviceMethod := serviceMethod, args := args,
          reply := none, error := none, doneChan := d, doneCount := 0 } writeErr)

/-! ### Client receive loop -/

/-- One inbound read attempt on the client side: either the header read
fails (including end of stream) or a response header arrives, followed by
a body whose decode succeeds (ok value) or fails (error message). -/
inductive RecvEvent where
  | headerFail (err : String)
  | response (h : Header) (body : Except String String)
deriving Repr

/-- Client.receive: loop while err == nil reading one response header per
iteration, resolving it against the pending table; on loop exit call
terminateCalls with the error.  Completed Call objects are accumulated in
the returned list (they live with their callers, not in the table).  An
empty event list models a receive loop still blocked in ReadHeader; no
termination has happened yet. -/
def receive (client : Client) : List RecvEvent → Client × List Call
  | [] => (client, [])
  | RecvEvent.headerFail e :: _ => (terminateCalls client e, [])
  | RecvEvent.response h body :: rest =>
    match removeCall client h.seq with
    | (client1, none) =>
      match body with
      | Except.ok _ =>
        let (client2, calls) := receive client1 rest
        (client2, calls)
      | Except.error e => (terminateCalls client1 e, [])
    | (client1, some call) =>
      if h.error ≠ "" then
        let call := Call.done { call with error := some h.error }
        match body with
        | Except.ok _ =>
          let (client2, calls) := receive client1 rest
          (client2, call :: calls)
        | Except.error e => (terminateCalls client1 e, [call])
      else
        match body with
        | Except.ok b =>
          let call := Call.done { call with reply := some b }
          let (client2, calls) := receive client1 rest
          (client2, call :: calls)
        | Except.error e =>
          let call := Call.done { call with error := some ("reading body " ++ e) }
          (terminateCalls client1 ("reading body " ++ e), [call])

/-- A call record as Client.Go builds it before registration; the contents
of the call do not influence which sequence number registerCall issues. -/
def probeCall : Call :=
  { seq := 0, serviceMethod := "", args := "", reply := none,
    error := none, doneChan := { capacity := 10 }, doneCount := 0 }

/-- Sequence numbers issued by n successive registerCall invocations
starting from the given client state. -/
def issuedSeqs (client : Client) : Nat → List Nat
  | 0 => []
  | n + 1 =>
    let r := registerCall client probeCall
    r.2.1 :: issuedSeqs r.1 n

/-! ## parseOptions / NewClient / Dial (src/unnamed/part_002, client file) -/

/-- parseOptions: an empty variadic list or a nil first element yields
DefaultOption; otherwise a list of length different from 1 is an error;
otherwise the single option has its MagicNumber overwritten with the
default and an empty CodecType defaulted. -/
def parseOptions (opts : List (Option Opt)) : Except String Opt :=
  match opts with
  | [] => Except.ok DefaultOption
  | none :: _ => Except.ok DefaultOption
  | some o :: rest =>
    if rest.length + 1 ≠ 1 then Except.error "number of options is more than 1"
    else
      Except.ok
        { o with
            magicNumber := DefaultOption.magicNumber,
            codecType := if o.codecType = "" then DefaultOption.codecType else o.codecType }

/-- NewClient: look up the codec constructor for opt.CodecType (failing
without writing anything when it is missing), then JSON-encode opt onto the
connection as the handshake record.  The returned value is the handshake
record actually written. -/
def NewClient (opt : Opt) : Except String Opt :=
  match NewCodecFuncMap opt.codecType with
  | none => Except.error ("invalid codec type " ++ opt.codecType)
  | some _ => Except.ok opt

/-- Dial: parseOptions then NewClient on the parsed option. -/
def Dial (opts : List (Option Opt)) : Except String Opt :=
  match parseOptions opts with
  | Except.error e => Except.error e
  | Except.ok opt => NewClient opt

/-! ## Method registry (src/unnamed/part_002, service file) -/

/-- The part of a reflect.Type observable to the registry checks: the type
name and the package path (empty for built-in types). -/
structure GoType where
  name : String
  pkgPath : String
deriving Repr, DecidableEq

/-- ast.IsExported: the name starts with an upper-case letter (ASCII model
of unicode.IsUpper on the first rune; an empty name is not exported). -/
def isExported (name : String) : Bool :=
  match name.data with
  | [] => false
  | c :: _ => c.isUpper

/-- reflect.TypeOf((*error)(nil)).Elem(): the built-in error interface. -/
def errorType : GoType := { name := "error", pkgPath := "" }

/-- isExportedOrBuiltinType from the service file. -/
def isExportedOrBuiltinType (t : GoType) : Bool :=
  isExported t.name || t.pkgPath = ""

/-- The shape of one method of the receiver type as reflection reports it:
numIn counts the receiver, out0 is Out(0), argType is In(1) and replyType
is In(2) (consulted only after the arity checks pass). -/
structure GoMethod where
  name : String
  numIn : Nat
  numOut : Nat
  out0 : GoType
  argType : GoType
  replyType : GoType
deriving Repr, DecidableEq

/-- methodType from the service file (numCalls starts at 0). -/
structure methodType where
  method : GoMethod
  ArgType : GoType
  ReplyType : GoType
  numCalls : Nat
deriving Repr, DecidableEq

/-- The methodType record stored for a method that passes every check. -/
def mkMethodType (m : GoMethod) : methodType :=
  { method := m, ArgType := m.argType, ReplyType := m.replyType, numCalls := 0 }

/-- One iteration of the loop in service.registerMethods: skip (continue)
a method whose arities are not 3-in/1-out, whose single result is not the
error interface, or whose argument or reply type is neither exported nor
built-in; otherwise insert it into the method map keyed by name.  Method
names of one Go type are distinct, so the map insert is an append. -/
def registerStep (acc : List (String × methodType)) (m : GoMethod) :
    List (String × methodType) :=
  if m.numIn ≠ 3 || m.numOut ≠ 1 then acc
  else if m.out0 ≠ errorType then acc
  else if !isExportedOrBuiltinType m.argType || !isExportedOrBuiltinType m.replyType then acc
  else acc ++ [(m.name, mkMethodType m)]

/-- service.registerMethods: iterate over the methods of the receiver
type in order, starting from an empty method map. -/
def registerMethods (methods : List GoMethod) : List (String × methodType) :=
  methods.foldl registerStep []

/-- service from the service file: the receiver type name and the method
map (the receiver value and reflect.Type carry no further information the
claims need). -/
structure service where
  name : String
  method : List (String × methodType)
deriving Repr, DecidableEq

/-- newService: take the (indirected) receiver type name; if it is not an
exported identifier, log.Fatalf aborts registration (modelled as an
error); otherwise register the methods. -/
def newService (typeName : String) (methods : List GoMethod) : Except String service :=
  if !isExported typeName then
    Except.error ("rpc server: " ++ typeName ++ " is not a valid service name")
  else
    Except.ok { name := typeName, method := registerMethods methods }

/-- Calling convention stated directly from the spec words, for comparison
with registerMethods: exactly two non-receiver parameters (so three inputs
counting the receiver), exactly one return value of the error type, and
argument and reply types exported or built-in. -/
def rpcEligibleSpec (m : GoMethod) : Bool :=
  m.numIn = 3 && m.numOut = 1 && m.out0 = errorType
    && isExportedOrBuiltinType m.argType && isExportedOrBuiltinType m.replyType

/-! ## Registry-backed dispatch, modelled from the spec (for claim C1)

The server file under src is the day-1 version: its handleRequest carries
a TODO to call registered rpc methods and answers every request with a
hello string, and no file under src wires the service registry into the
request loop.  The dispatch below is therefore modelled from the spec.
-/

/-- Lookup by name in an association list (Go map indexing). -/
def assocLookup {α : Type} : List (String × α) → String → Option α
  | [], _ => none
  | p :: ps, s => if p.1 = s then some p.2 else assocLookup ps s

/-- Modelled from the spec: resolve a serviceMethod string of the form
Service.Method by splitting on the separator, look up the Service by name
in the registry, then the Method by name within it; a missing service or
method is an InvocationError.  This resolver is absent from src (only the
registry it consults is present). -/
def findServiceSpec (reg : List (String × service)) (serviceMethod : String) :
    Except String methodType :=
  match serviceMethod.data.splitOn '.' with
  | [sname, mname] =>
    match assocLookup reg (String.mk sname) with
    | none => Except.error ("rpc server: cannot find service " ++ String.mk sname)
    | some svc =>
      match assocLookup svc.method (String.mk mname) with
      | none => Except.error ("rpc server: cannot find method " ++ String.mk mname)
      | some mt => Except.ok mt
  | _ => Except.error ("rpc server: service/method request ill-formed: " ++ serviceMethod)

/-- Modelled from the spec: the registry-backed request handler.  A failed
resolution writes a response whose Header.Error carries the InvocationError
and whose body is the invalidRequest sentinel; a successful resolution
invokes the method and writes its reply (the reply value itself is opaque
to the claims about dispatch). -/
def handleRequestSpec (reg : List (String × service)) (req : Request) : Header × Body :=
  match findServiceSpec reg req.h.seviceMethod with
  | Except.error e => ({ req.h with error := e }, Body.invalidRequest)
  | Except.ok _ => (req.h, Body.str ("reply to " ++ req.h.seviceMethod))

/-- Modelled from the spec: the serving loop with registry-backed dispatch
in place of the day-1 placeholder handler; the read side is the day-1
readRequest from src. -/
def serveCodecSpec (reg : List (String × service)) : List ReadEvent → List (Header × Body)
  | [] => []
  | ev :: rest =>
    match readRequest ev with
    | (none, some _) => []
    | (none, none) => []
    | (some req, some err) =>
      ({ req.h with error := err }, Body.invalidRequest) :: serveCodecSpec reg rest
    | (some req, none) => handleRequestSpec reg req :: serveCodecSpec reg rest

/-! ## Concrete example values used in witnesses -/

/-- An RPC-eligible method: Sum(args, reply) error on an exported type. -/
def sumMethod : GoMethod :=
  { name := "Sum", numIn := 3, numOut := 1, out0 := errorType,
    argType := { name := "Args", pkgPath := "main" },
    replyType := { name := "int", pkgPath := "" } }

/-- A method the registry must skip: only one non-receiver parameter. -/
def helloMethod : GoMethod :=
  { name := "Hello", numIn := 2, numOut := 1, out0 := errorType,
    argType := { name := "Args", pkgPath := "main" },
    replyType := { name := "int", pkgPath := "" } }

/-- A registry holding one service Foo whose only method is Sum. -/
def fooRegistry : List (String × service) :=
  [("Foo", { name := "Foo", method := [("Sum", mkMethodType sumMethod)] })]

/-- A fresh example call for the concrete client evaluations. -/
def egCall : Call :=
  { seq := 1, serviceMethod := "Foo.Sum", args := "args", reply := none,
    error := none, doneChan := { capacity := 1 }, doneCount := 0 }

/-- Header of a request for the unregistered method Foo.Bar. -/
def fooBarHeader : Header := { seviceMethod := "Foo.Bar", seq := 7, error := "" }

/-- Header of a request for the registered method Foo.Sum. -/
def fooSumHeader : Header := { seviceMethod := "Foo.Sum", seq := 8, error := "" }

/-- An example client owning one pending call under seq 1. -/
def egClient : Client :=
  { seq := 2, pending := [(1, egCall)], closing := false, shutdown := false }

/-! ## Helper lemmas -/

/-- An append whose left part is a nonempty string is nonempty. -/
theorem append_ne_empty_left (s t : String) (hs : s ≠ "") : s ++ t ≠ "" := by
  cases s with
  | mk ds =>
    cases t with
    | mk dt =>
      intro hcon
      apply hs
      have hd : ds ++ dt = ([] : List Char) := congrArg String.data hcon
      have h2 := (List.append_eq_nil.mp hd).1
      rw [h2]

/-! ## C6: handshake validation -/

/-- C6: for every connection whose handshake record carries a magic number
different from the protocol constant 0x3bef5c, or a codec tag with no
registered codec constructor, the server closes the connection without
writing any frame, and no request/response frame is exchanged on it. -/
theorem C6_bad_handshake_aborts (opt : Opt) (evs : List ReadEvent)
    (hbad : opt.magicNumber ≠ MagicNumber ∨ NewCodecFuncMap opt.codecType = none) :
    ServeConn (some opt) evs = { frames := [], connClosed := true } := by
  rcases hbad with hm | hc
  · simp [ServeConn, hm]
  · rcases eq_or_ne opt.magicNumber MagicNumber with hm | hm
    · simp [ServeConn, hm, hc]
    · simp [ServeConn, hm]

/-- C6 witness: a concrete handshake record with a wrong magic number. -/
theorem C6_bad_handshake_aborts_witness :
    ({ magicNumber := 0, codecType := GobType } : Opt).magicNumber ≠ MagicNumber ∧
      ServeConn (some { magicNumber := 0, codecType := GobType })
          [ReadEvent.request { seviceMethod := "Foo.Sum", seq := 1, error := "" } (some "b")]
        = { frames := [], connClosed := true } :=
  ⟨by decide,
    C6_bad_handshake_aborts { magicNumber := 0, codecType := GobType }
      [ReadEvent.request { seviceMethod := "Foo.Sum", seq := 1, error := "" } (some "b")]
      (Or.inl (by decide))⟩

/-! ## C2: server-side body-decode failure -/

/-- C2 counterexample: a request whose header decodes but whose body fails
to decode.  The claim says the server writes a response carrying the decode
error in Header.Error with the sentinel body; on the code, readRequest
returns the request with a nil error, so the server answers through the
normal day-1 handler: the written frame has an empty Header.Error and a
normal string body, not the sentinel. -/
theorem C2_counterexample :
    readRequest (ReadEvent.request { seviceMethod := "Foo.Sum", seq := 1, error := "" } none)
      = (some { h := { seviceMethod := "Foo.Sum", seq := 1, error := "" }, argv := "" }, none) ∧
    serveCodec [ReadEvent.request { seviceMethod := "Foo.Sum", seq := 1, error := "" } none]
      = [({ seviceMethod := "Foo.Sum", seq := 1, error := "" }, Body.str "geerpc resp 1")] ∧
    ∀ fr ∈ serveCodec [ReadEvent.request { seviceMethod := "Foo.Sum", seq := 1, error := "" } none],
      fr.1.error = "" ∧ fr.2 ≠ Body.invalidRequest := by
  decide

/-- C2 amended: a body-decode failure is only logged: readRequest still
returns the request with a nil error, so the request proceeds through the
normal handler (response with the echoed header, hence an empty Error field
whenever the inbound header had one) and the read loop continues; no
response carrying the decode error is synthesized. -/
theorem C2_body_decode_failure_swallowed (h : Header) (rest : List ReadEvent) :
    readRequest (ReadEvent.request h none) = (some { h := h, argv := "" }, none) ∧
    serveCodec (ReadEvent.request h none :: rest)
      = (h, Body.str ("geerpc resp " ++ toString h.seq)) :: serveCodec rest :=
  ⟨rfl, rfl⟩

/-! ## C8: GobCodec.Write flush/close behaviour -/

/-- C8 counterexample: when both encode steps succeed and the flush fails,
GobCodec.Write discards the flush error: it reports no error and does not
close the underlying stream, contradicting the claim that a flush failure
closes the stream. -/
theorem C8_counterexample :
    GobCodec.Write
        { encodeHeaderErr := none, encodeBodyErr := none, flushErr := some "flush failure" }
      = { err := none, flushed := true, closed := false } ∧
    ({ encodeHeaderErr := none, encodeBodyErr := none,
        flushErr := some "flush failure" } : GobWriteEnv).flushErr.isSome = true := by
  decide

/-- C8 amended: the output buffer is flushed after the frame is encoded on
every call, and the underlying stream is closed exactly when the header
encode or the body encode failed; a flush failure is discarded, neither
reported through err nor answered by closing the stream. -/
theorem C8_write_flush_close (env : GobWriteEnv) :
    (GobCodec.Write env).flushed = true ∧
    ((GobCodec.Write env).closed = true ↔
      env.encodeHeaderErr.isSome = true ∨ env.encodeBodyErr.isSome = true) ∧
    (GobCodec.Write env).closed = (GobCodec.Write env).err.isSome := by
  rcases env with ⟨he, be, fe⟩
  cases he <;> cases be <;> simp [GobCodec.Write]

/-! ## C10: parseOptions / NewClient / Dial -/

/-- Any option record successfully produced by parseOptions carries the
protocol magic number. -/
theorem parseOptions_ok_magic :
    ∀ (opts : List (Option Opt)) (o : Opt),
      parseOptions opts = Except.ok o → o.magicNumber = MagicNumber
  | [], o, h => by
    simp [parseOptions] at h
    simp [← h, DefaultOption]
  | none :: rest, o, h => by
    simp [parseOptions] at h
    simp [← h, DefaultOption]
  | some o1 :: rest, o, h => by
    cases rest with
    | nil =>
      simp [parseOptions] at h
      simp [← h, DefaultOption]
    | cons a l =>
      simp [parseOptions] at h

/-- C10 counterexample: a two-element option list whose first entry is nil
is not rejected: parseOptions returns the default option instead of the
more-than-one error the claim requires. -/
theorem C10_counterexample :
    parseOptions [none, some DefaultOption] = Except.ok DefaultOption ∧
    [none, some (DefaultOption : Opt)].length = 2 :=
  ⟨rfl, rfl⟩

/-- C10 amended: an empty list or a list whose first entry is nil yields
the default option (even when further entries follow); otherwise more than
one option is an error; a single non-nil option has its MagicNumber field
unconditionally overwritten with the protocol constant (and an empty codec
tag defaulted), so every option record coming out of parseOptions, and
hence every handshake record a Dial-built client sends, carries the valid
magic number. -/
theorem C10_parseOptions (opts : List (Option Opt)) :
    (parseOptions [] = Except.ok DefaultOption) ∧
    (∀ rest, parseOptions (none :: rest) = Except.ok DefaultOption) ∧
    (∀ (o : Opt) rest, rest ≠ [] →
      parseOptions (some o :: rest) = Except.error "number of options is more than 1") ∧
    (∀ o : Opt, parseOptions [some o]
      = Except.ok { o with
          magicNumber := MagicNumber,
          codecType := if o.codecType = "" then DefaultOption.codecType else o.codecType }) ∧
    (∀ o : Opt, parseOptions opts = Except.ok o → o.magicNumber = MagicNumber) ∧
    (∀ o : Opt, Dial opts = Except.ok o → o.magicNumber = MagicNumber) := by
  refine ⟨rfl, fun rest => rfl, ?_, ?_, ?_, ?_⟩
  · intro o rest hr
    cases rest with
    | nil => exact absurd rfl hr
    | cons a l => simp [parseOptions]
  · intro o
    simp [parseOptions, DefaultOption, MagicNumber]
  · intro o h
    exact parseOptions_ok_magic opts o h
  · intro o h
    unfold Dial NewClient at h
    cases hp : parseOptions opts with
    | error e =>
      rw [hp] at h
      simp at h
    | ok o1 =>
      rw [hp] at h
      dsimp only at h
      cases hc : NewCodecFuncMap o1.codecType with
      | none =>
        rw [hc] at h
        simp at h
      | some k =>
        rw [hc] at h
        simp only [Except.ok.injEq] at h
        subst h
        exact parseOptions_ok_magic opts o1 hp

/-- C10 witness: the amended branches evaluated at concrete option lists. -/
theorem C10_parseOptions_witness :
    parseOptions [some { magicNumber := 7, codecType := "" }, some DefaultOption]
        = Except.error "number of options is more than 1" ∧
    parseOptions [some { magicNumber := 7, codecType := "" }]
        = Except.ok { magicNumber := MagicNumber, codecType := GobType } := by
  constructor
  · exact (C10_parseOptions []).2.2.1 { magicNumber := 7, codecType := "" }
      [some DefaultOption] (by simp)
  · rw [(C10_parseOptions []).2.2.2.1 { magicNumber := 7, codecType := "" }]
    rfl

/-! ## C5: operations on a closing or shut-down client -/

/-- C5: for every client in the closing or shutdown state, registerCall
returns seq 0 with ErrShutdown and leaves the whole client state (pending
table and sequence counter included) unchanged, and send writes nothing to
the connection, signalling the call completion with that error instead. -/
theorem C5_shutdown_fails_fast (client : Client) (call : Call) (writeErr : Option String)
    (hdown : client.closing = true ∨ client.shutdown = true) :
    registerCall client call = (client, 0, some ErrShutdown) ∧
    send client call writeErr
      = (client, [], Call.done { call with error := some ErrShutdown }) := by
  have hcond : (client.shutdown || client.closing) = true := by
    rcases hdown with h | h <;> simp [h]
  constructor
  · simp [registerCall, hcond]
  · simp [send, registerCall, hcond]

/-- C5 witness: a concrete closing client. -/
theorem C5_shutdown_fails_fast_witness :
    (({ seq := 3, pending := [], closing := true, shutdown := false } : Client).closing = true ∨
      ({ seq := 3, pending := [], closing := true, shutdown := false } : Client).shutdown = true) ∧
    (registerCall { seq := 3, pending := [], closing := true, shutdown := false } egCall
        = ({ seq := 3, pending := [], closing := true, shutdown := false }, 0, some ErrShutdown) ∧
      send { seq := 3, pending := [], closing := true, shutdown := false } egCall none
        = ({ seq := 3, pending := [], closing := true, shutdown := false }, [],
            Call.done { egCall with error := some ErrShutdown })) :=
  ⟨Or.inl rfl,
    C5_shutdown_fails_fast { seq := 3, pending := [], closing := true, shutdown := false }
      egCall none (Or.inl rfl)⟩

/-! ## C7: completion-channel policy of Client.Go -/

/-- C7: Client.Go with a nil completion channel allocates a fresh buffered
channel of capacity 10 for the call; a caller-supplied channel of capacity
0 makes the client panic instead of registering anything; any other
supplied channel is used as the call completion signal. -/
theorem C7_go_done_channel (client : Client) (sm args : String) (w : Option String) :
    (Client.Go client sm args none w
      = Except.ok (send client
          { seq := 0, serviceMethod := sm, args := args, reply := none,
            error := none, doneChan := { capacity := 10 }, doneCount := 0 } w)) ∧
    (∀ d : DoneChan, d.capacity = 0 →
      Client.Go client sm args (some d) w
        = Except.error "rpc client: done channel is unbuffered") ∧
    (∀ d : DoneChan, d.capacity ≠ 0 →
      Client.Go client sm args (some d) w
        = Except.ok (send client
            { seq := 0, serviceMethod := sm, args := args, reply := none,
              error := none, doneChan := d, doneCount := 0 } w)) := by
  refine ⟨rfl, ?_, ?_⟩
  · intro d hd
    simp [Client.Go, hd]
  · intro d hd
    simp [Client.Go, hd]

/-- C7 witness: the zero-capacity and the buffered supplied channel at a
concrete client. -/
theorem C7_go_done_channel_witness :
    Client.Go newClientCodec "Foo.Sum" "a" (some { capacity := 0 }) none
      = Except.error "rpc client: done channel is unbuffered" ∧
    Client.Go newClientCodec "Foo.Sum" "a" (some { capacity := 1 }) none
      = Except.ok (send newClientCodec
          { seq := 0, serviceMethod := "Foo.Sum", args := "a", reply := none,
            error := none, doneChan := { capacity := 1 }, doneCount := 0 } none) :=
  ⟨(C7_go_done_channel newClientCodec "Foo.Sum" "a" none).2.1 { capacity := 0 } rfl,
    (C7_go_done_channel newClientCodec "Foo.Sum" "a" none).2.2 { capacity := 1 } (by decide)⟩

/-! ## C3: monotonicity of the issued sequence numbers -/

/-- The seq values issued by n successful registrations from a live client
count up from the current counter value while no uint64 wraparound can
occur. -/
theorem issuedSeqs_range :
    ∀ (n : Nat) (c : Client), c.closing = false → c.shutdown = false →
      c.seq + n ≤ U64 → issuedSeqs c n = List.range' c.seq n
  | 0, _, _, _, _ => rfl
  | n + 1, c, hc, hs, hb => by
    have hcond : (c.shutdown || c.closing) = false := by simp [hc, hs]
    have hreg : registerCall c probeCall
        = ({ c with
              pending := (c.seq, { probeCall with seq := c.seq }) :: c.pending,
              seq := (c.seq + 1) % U64 }, c.seq, none) := by
      simp [registerCall, hcond]
    rw [List.range'_succ]
    simp only [issuedSeqs, hreg]
    refine congrArg (List.cons c.seq) ?_
    cases n with
    | zero => rfl
    | succ m =>
      have hlt : c.seq + 1 < U64 := by omega
      have hmod : (c.seq + 1) % U64 = c.seq + 1 := Nat.mod_eq_of_lt hlt
      have hrec := issuedSeqs_range (m + 1)
        { c with
            pending := (c.seq, { probeCall with seq := c.seq }) :: c.pending,
            seq := (c.seq + 1) % U64 }
        (by simp [hc]) (by simp [hs]) (by simp only [hmod]; omega)
      rw [hrec]
      simp [hmod]

/-- C3: from a fresh client, the seq values issued by successive successful
registerCall invocations are 1, 2, ..., n: strictly increasing, starting at
1, never 0 and never reused, for any run length within the uint64 range of
the counter. -/
theorem C3_seq_strictly_increasing (n : Nat) (hbound : n ≤ U64 - 1) :
    issuedSeqs newClientCodec n = List.range' 1 n ∧
    List.Pairwise (· < ·) (issuedSeqs newClientCodec n) ∧
    0 ∉ issuedSeqs newClientCodec n ∧
    (issuedSeqs newClientCodec n).Nodup ∧
    (0 < n → (issuedSeqs newClientCodec n).head? = some 1) := by
  have hU : 0 < U64 := by norm_num [U64]
  have hb : newClientCodec.seq + n ≤ U64 := by
    show 1 + n ≤ U64
    omega
  have heq := issuedSeqs_range n newClientCodec rfl rfl hb
  rw [show newClientCodec.seq = 1 from rfl] at heq
  refine ⟨heq, ?_, ?_, ?_, ?_⟩
  · rw [heq]
    exact List.pairwise_lt_range' 1 n
  · rw [heq]
    simp [List.mem_range'_1]
  · rw [heq]
    exact List.nodup_range' 1 n
  · intro hn
    cases n with
    | zero => exact absurd hn (by omega)
    | succ m =>
      rw [heq, List.range'_succ]
      rfl

/-- C3 witness: the first five issued sequence numbers. -/
theorem C3_seq_strictly_increasing_witness :
    (5 : Nat) ≤ U64 - 1 ∧
    (issuedSeqs newClientCodec 5 = List.range' 1 5 ∧
      List.Pairwise (· < ·) (issuedSeqs newClientCodec 5) ∧
      0 ∉ issuedSeqs newClientCodec 5 ∧
      (issuedSeqs newClientCodec 5).Nodup ∧
      (0 < 5 → (issuedSeqs newClientCodec 5).head? = some 1)) :=
  ⟨by norm_num [U64], C3_seq_strictly_increasing 5 (by norm_num [U64])⟩

/-! ## C4: termination of pending calls on a header-read failure -/

/-- C4 counterexample: after the receive loop hits a header-read failure,
the pending table is not emptied: the terminated call is still in it,
contradicting the claimed emptying of the table. -/
theorem C4_counterexample :
    (receive egClient [RecvEvent.headerFail "EOF"]).1.pending
      = [(1, Call.done { egCall with error := some "EOF" })] ∧
    (receive egClient [RecvEvent.headerFail "EOF"]).1.pending ≠ [] := by
  decide

/-- C4 amended: when the receive loop hits a header-read failure (including
end-of-stream), every call still in the pending table gets its error field
set to that error and its completion signalled exactly once, the client is
marked shut down, and every subsequent registration attempt fails with seq
0 and ErrShutdown; the terminated entries however remain in the pending
table, which is not emptied. -/
theorem C4_header_fail_terminates (client : Client) (e : String) (evs : List RecvEvent)
    (hclean : ∀ p ∈ client.pending, p.2.doneCount = 0) :
    (receive client (RecvEvent.headerFail e :: evs)).1 = terminateCalls client e ∧
    (terminateCalls client e).shutdown = true ∧
    (terminateCalls client e).pending
      = client.pending.map (fun p => (p.1, Call.done { p.2 with error := some e })) ∧
    (∀ p ∈ (terminateCalls client e).pending, p.2.error = some e ∧ p.2.doneCount = 1) ∧
    (∀ call, registerCall (terminateCalls client e) call
      = (terminateCalls client e, 0, some ErrShutdown)) := by
  refine ⟨rfl, rfl, rfl, ?_, ?_⟩
  · intro p hp
    simp only [terminateCalls, List.mem_map] at hp
    obtain ⟨q, hq, rfl⟩ := hp
    refine ⟨rfl, ?_⟩
    simp [Call.done, hclean q hq]
  · intro call
    simp [registerCall, terminateCalls]

/-- C4 witness: the amended termination behaviour at a concrete client
with one pending call. -/
theorem C4_header_fail_terminates_witness :
    (∀ p ∈ egClient.pending, p.2.doneCount = 0) ∧
    ((receive egClient [RecvEvent.headerFail "EOF"]).1 = terminateCalls egClient "EOF" ∧
    (terminateCalls egClient "EOF").shutdown = true ∧
    (terminateCalls egClient "EOF").pending
      = egClient.pending.map (fun p => (p.1, Call.done { p.2 with error := some "EOF" })) ∧
    (∀ p ∈ (terminateCalls egClient "EOF").pending,
      p.2.error = some "EOF" ∧ p.2.doneCount = 1) ∧
    (∀ call, registerCall (terminateCalls egClient "EOF") call
      = (terminateCalls egClient "EOF", 0, some ErrShutdown))) :=
  ⟨by decide, C4_header_fail_terminates egClient "EOF" [] (by decide)⟩

/-! ## C9: method registration -/

/-- One registration step keeps a method exactly when it satisfies the
calling convention stated by the spec. -/
theorem registerStep_eq (acc : List (String × methodType)) (m : GoMethod) :
    registerStep acc m =
      if rpcEligibleSpec m then acc ++ [(m.name, mkMethodType m)] else acc := by
  unfold registerStep rpcEligibleSpec
  by_cases h1 : m.numIn = 3 <;> by_cases h2 : m.numOut = 1 <;>
    by_cases h3 : m.out0 = errorType <;>
    by_cases h4 : isExportedOrBuiltinType m.argType = true <;>
    by_cases h5 : isExportedOrBuiltinType m.replyType = true <;>
    simp [h1, h2, h3, h4, h5]

/-- registerMethods keeps exactly the methods matching the calling
convention, in order, each stored under its name with its argument and
reply type descriptors. -/
theorem registerMethods_eq (ms : List GoMethod) :
    registerMethods ms
      = (ms.filter (fun m => rpcEligibleSpec m)).map (fun m => (m.name, mkMethodType m)) := by
  suffices h : ∀ acc, ms.foldl registerStep acc
      = acc ++ (ms.filter (fun m => rpcEligibleSpec m)).map (fun m => (m.name, mkMethodType m)) by
    simpa [registerMethods] using h []
  induction ms with
  | nil => intro acc; simp
  | cons m ms ih =>
    intro acc
    simp only [List.foldl_cons, registerStep_eq, List.filter_cons]
    by_cases h : rpcEligibleSpec m = true
    · simp [h, ih]
    · simp [h, ih]

/-- C9: newService registers exactly the methods with two non-receiver
parameters, a single return value of the error type, and
exported-or-builtin argument and reply types; every other method is
skipped without an error, and a receiver whose type name is not exported
makes registration fail fatally. -/
theorem C9_registration (typeName : String) (ms : List GoMethod) :
    (isExported typeName = false →
      newService typeName ms
        = Except.error ("rpc server: " ++ typeName ++ " is not a valid service name")) ∧
    (isExported typeName = true →
      newService typeName ms
        = Except.ok
            { name := typeName,
              method := (ms.filter (fun m => rpcEligibleSpec m)).map
                (fun m => (m.name, mkMethodType m)) }) := by
  constructor
  · intro h
    simp [newService, h]
  · intro h
    simp [newService, h, registerMethods_eq]

/-- C9 witness: the receiver type Foo with one eligible and one ineligible
method, and the unexported receiver type name foo. -/
theorem C9_registration_witness :
    isExported "Foo" = true ∧
    newService "Foo" [sumMethod, helloMethod]
      = Except.ok { name := "Foo", method := [("Sum", mkMethodType sumMethod)] } ∧
    isExported "foo" = false ∧
    newService "foo" [sumMethod]
      = Except.error "rpc server: foo is not a valid service name" := by
  refine ⟨rfl, ?_, rfl, ?_⟩
  · rw [(C9_registration "Foo" [sumMethod, helloMethod]).2 rfl]
    rfl
  · rw [(C9_registration "foo" [sumMethod]).1 rfl]
    rfl

/-! ## C1: dispatch of an unregistered service or method (spec-modelled) -/

/-- Every error findServiceSpec produces carries a nonempty message. -/
theorem findServiceSpec_error_ne_empty (reg : List (String × service)) (sm e : String)
    (hfail : findServiceSpec reg sm = Except.error e) : e ≠ "" := by
  unfold findServiceSpec at hfail
  revert hfail
  split
  · split
    · intro he
      simp only [Except.error.injEq] at he
      subst he
      exact append_ne_empty_left _ _ (by decide)
    · split
      · intro he
        simp only [Except.error.injEq] at he
        subst he
        exact append_ne_empty_left _ _ (by decide)
      · intro he
        simp at he
  · intro he
    simp only [Except.error.injEq] at he
    subst he
    exact append_ne_empty_left _ _ (by decide)

/-- C1: with the spec-modelled dispatcher, a request whose serviceMethod
does not resolve to a registered service and method is answered with a
response frame whose Header.Error carries the nonempty InvocationError and
whose body is the invalidRequest sentinel, and the serving loop continues
with the remaining requests: the connection stays usable and nothing
crashes. -/
theorem C1_unknown_service_error_response (reg : List (String × service)) (h : Header)
    (b : String) (rest : List ReadEvent) (e : String)
    (hfail : findServiceSpec reg h.seviceMethod = Except.error e) :
    e ≠ "" ∧
    serveCodecSpec reg (ReadEvent.request h (some b) :: rest)
      = ({ h with error := e }, Body.invalidRequest) :: serveCodecSpec reg rest := by
  refine ⟨findServiceSpec_error_ne_empty reg h.seviceMethod e hfail, ?_⟩
  show handleRequestSpec reg { h := h, argv := b } :: serveCodecSpec reg rest
      = ({ h with error := e }, Body.invalidRequest) :: serveCodecSpec reg rest
  simp only [handleRequestSpec]
  rw [hfail]

/-- C1 witness: a request for the unregistered method Foo.Bar against a
registry holding only Foo.Sum, followed by a well-formed request showing
the loop goes on. -/
theorem C1_unknown_service_error_response_witness :
    findServiceSpec fooRegistry "Foo.Bar"
      = Except.error "rpc server: cannot find method Bar" ∧
    ("rpc server: cannot find method Bar" ≠ "" ∧
      serveCodecSpec fooRegistry
          [ReadEvent.request fooBarHeader (some "b"), ReadEvent.request fooSumHeader (some "c")]
        = ({ fooBarHeader with error := "rpc server: cannot find method Bar" },
            Body.invalidRequest)
            :: serveCodecSpec fooRegistry [ReadEvent.request fooSumHeader (some "c")]) :=
  ⟨rfl,
    C1_unknown_service_error_response fooRegistry fooBarHeader "b"
      [ReadEvent.request fooSumHeader (some "c")]
      "rpc server: cannot find method Bar" rfl⟩

end CWRPC
